import Mathlib

/-!
Verification development for the Brink Home OAuth client
(`custom_components/brink_ventilation_1-1/core/brink_oauth.py`).

The Python client is embedded shallowly:
* URL/query parsing (`urllib.parse.urlparse` / `parse_qs` as used by
  `_extract_code` and the `ReturnUrl` fallback) is modelled on `List Char`;
* the regex scrapers (`re.search` with patterns of the shape
  `LIT[^>]+LIT"([^"]+)"`) are modelled by an explicit leftmost,
  greedy-with-backtracking matcher;
* PKCE (`_generate_pkce`) is modelled with executable base64url encoding and a
  full executable SHA-256;
* the network is an oracle `Net : Nat → NetEvent` consumed one event per
  HTTP request, an event being either a response (status, `Location` header,
  body text, parsed JSON form) or a raised transport exception;
* Python exceptions are `Except` values: the bodies of `authenticate` /
  `refresh_access_token` are written in `Except` and the surrounding
  `try/except` handlers are explicit wrappers.
-/

namespace Brink

/-! ## Percent / query-string decoding (urllib.parse.parse_qs, unquote) -/

/-- Value of a hexadecimal digit, `none` for non-hex characters. -/
def hexVal (c : Char) : Option Nat :=
  let n := c.toNat
  if 48 ≤ n ∧ n ≤ 57 then some (n - 48)
  else if 65 ≤ n ∧ n ≤ 70 then some (n - 55)
  else if 97 ≤ n ∧ n ≤ 102 then some (n - 87)
  else none

/-- Percent-decoding as in `urllib.parse.unquote`: a `%` followed by two hex
digits becomes the character with that code (faithful for the ASCII data this
client handles; multi-byte UTF-8 sequences are out of scope), an invalid `%`
is kept literally. -/
def pctDecode : List Char → List Char
  | [] => []
  | '%' :: a :: b :: rest =>
    match hexVal a, hexVal b with
    | some x, some y => Char.ofNat (16 * x + y) :: pctDecode rest
    | _, _ => '%' :: pctDecode (a :: b :: rest)
  | c :: rest => c :: pctDecode rest

/-- `unquote_plus` of `parse_qs`: first `'+' → ' '`, then percent-decoding. -/
def unquote_plus (s : String) : String :=
  String.mk (pctDecode (s.data.map (fun c => if c = '+' then ' ' else c)))

/-- Split a character list at the first occurrence of `c`
(Python `s.split(c, 1)`): `none` when `c` does not occur. -/
def splitFirst (c : Char) (l : List Char) : Option (List Char × List Char) :=
  let pre := l.takeWhile (fun x => x ≠ c)
  if pre.length = l.length then none
  else some (pre, l.drop (pre.length + 1))

/-- Split a character list at every occurrence of `c`
(Python `str.split(c)`): structural-recursive so it evaluates in the kernel. -/
def splitOnChar (c : Char) : List Char → List (List Char)
  | [] => [[]]
  | x :: xs =>
    let r := splitOnChar c xs
    if x = c then [] :: r
    else
      match r with
      | [] => [[x]]
      | h :: t => (x :: h) :: t

/-- The query component of a URL as computed by `urllib.parse.urlsplit`:
the fragment (everything from the first `#`) is removed first, then the query
is everything after the first remaining `?`. -/
def urlQuery (url : String) : String :=
  let noFrag := match splitFirst '#' url.data with
    | some (pre, _) => pre
    | none => url.data
  match splitFirst '?' noFrag with
  | some (_, q) => String.mk q
  | none => ""

/-- `urllib.parse.parse_qsl` with default options: split the query on `&`,
skip empty chunks, skip chunks without `=`, skip blank values
(`keep_blank_values=False`), and `unquote_plus` both name and value. -/
def qsPairs (query : String) : List (String × String) :=
  (splitOnChar '&' query.data).filterMap (fun part =>
    if part = [] then none
    else match splitFirst '=' part with
      | none => none
      | some (n, v) =>
        if v = [] then none
        else some (unquote_plus (String.mk n), unquote_plus (String.mk v)))

/-- First value listed for `key` in the parsed query
(`parse_qs(q).get(key, [default])[0]`). -/
def qsFirst (query key : String) : Option String :=
  ((qsPairs query).find? (fun p => p.1 == key)).map (fun p => p.2)

/-- `BrinkOAuthClient._extract_code` (brink_oauth.py lines 204–211):
empty input is falsy and yields `None`; otherwise the first `code` value of
the URL's query component. -/
def extract_code (url : String) : Option String :=
  if url = "" then none
  else qsFirst (urlQuery url) "code"

/-! ## HTML scraping (re.search on the login page) -/

/-- Python's `needle in haystack` substring test. -/
def substrIn (needle s : String) : Bool :=
  (List.range (s.data.length + 1)).any (fun i => needle.data.isPrefixOf (s.data.drop i))

/-- The capture group `([^"]+)"`: a maximal nonempty run of non-quote
characters that must be terminated by a double quote. -/
def captureAfter (v : List Char) : Option String :=
  let w := v.takeWhile (fun c => c ≠ '\"')
  if w = [] then none
  else if w.length < v.length then some (String.mk w) else none

/-- Match `[^>]+B"([^"]+)"` at the start of `t` (the text right after the
literal prefix of the pattern): the greedy `[^>]+` with backtracking selects
the largest split point `k ≥ 1` such that the first `k` characters avoid `>`,
`B` follows, and the capture succeeds. -/
def matchTail (B : List Char) (t : List Char) : Option String :=
  ((List.range (t.length + 1)).reverse).findSome? (fun k =>
    if 1 ≤ k ∧ (t.take k).all (fun c => c ≠ '>') ∧ B.isPrefixOf (t.drop k) then
      captureAfter (t.drop (k + B.length))
    else none)

/-- `re.search` for the pattern `A[^>]+B([^"]+)"` (all the scraper patterns in
brink_oauth.py have this shape): leftmost start position wins. -/
def reSearch (A B : List Char) (s : List Char) : Option String :=
  (List.range (s.length + 1)).findSome? (fun i =>
    if A.isPrefixOf (s.drop i) then matchTail B (s.drop (i + A.length)) else none)

/-- `BrinkOAuthClient._extract_form_action` (lines 213–216):
`re.search(r'<form[^>]+action="([^"]+)"', html)`. -/
def extract_form_action (html : String) : Option String :=
  reSearch "<form".data "action=\"".data html.data

/-- `BrinkOAuthClient._extract_antiforgery_token` (lines 218–221):
`re.search(r'name="__RequestVerificationToken"[^>]+value="([^"]+)"', html)`,
empty string when absent. -/
def extract_antiforgery_token (html : String) : String :=
  (reSearch "name=\"__RequestVerificationToken\"".data "value=\"".data html.data).getD ""

/-- `BrinkOAuthClient._extract_return_url` (lines 223–226):
`re.search(r'name="ReturnUrl"[^>]+value="([^"]+)"', html)`,
empty string when absent. -/
def extract_return_url (html : String) : String :=
  (reSearch "name=\"ReturnUrl\"".data "value=\"".data html.data).getD ""

/-! ## base64url (base64.urlsafe_b64encode / urlsafe_b64decode) -/

/-- The URL-safe base64 alphabet. -/
def b64Alphabet : List Char :=
  "ABCDEFGHIJKLMNOPQRSTUVWXYZabcdefghijklmnopqrstuvwxyz0123456789-_".data

/-- Character for a 6-bit value. -/
def b64Char (n : Nat) : Char := b64Alphabet.getD n '?'

/-- 6-bit value of an alphabet character. -/
def b64CharVal (c : Char) : Nat := b64Alphabet.findIdx (fun x => x == c)

/-- The 6-bit groups of a byte sequence (encoding direction, no padding). -/
def b64Indices : List Nat → List Nat
  | [] => []
  | [a] => [a / 4, a % 4 * 16]
  | [a, b] => [a / 4, a % 4 * 16 + b / 16, b % 16 * 4]
  | a :: b :: c :: rest =>
    a / 4 :: (a % 4 * 16 + b / 16) :: (b % 16 * 4 + c / 64) :: c % 64 :: b64Indices rest

/-- The `=` padding appended by `base64.urlsafe_b64encode`. -/
def b64Pad (len : Nat) : List Char :=
  match len % 3 with
  | 0 => []
  | 1 => ['=', '=']
  | _ => ['=']

/-- `base64.urlsafe_b64encode` on a byte list, as a string. -/
def urlsafe_b64encode (bs : List Nat) : String :=
  String.mk ((b64Indices bs).map b64Char ++ b64Pad bs.length)

/-- Bytes reconstructed from 6-bit groups (decoding direction). -/
def b64Bytes : List Nat → List Nat
  | [] => []
  | [_] => []
  | [w, x] => [w * 4 + x / 16]
  | [w, x, y] => [w * 4 + x / 16, x % 16 * 16 + y / 4]
  | w :: x :: y :: z :: rest =>
    (w * 4 + x / 16) :: (x % 16 * 16 + y / 4) :: (y % 4 * 64 + z) :: b64Bytes rest

/-- `base64.urlsafe_b64decode` on a correctly padded input: drop the trailing
`=` padding and reassemble bytes from the 6-bit groups. -/
def urlsafe_b64decode (s : String) : List Nat :=
  b64Bytes ((s.data.takeWhile (fun c => c ≠ '=')).map b64CharVal)

/-- `.rstrip('=')` (brink_oauth.py lines 37, 40). -/
def rstripEq (s : String) : String :=
  String.mk (((s.data.reverse).dropWhile (fun c => c = '=')).reverse)

/-- Restore the `=` padding stripped from a base64url string (the inverse
step the specification's PKCE property performs before decoding). -/
def restorePad (s : String) : String :=
  String.mk (s.data ++ List.replicate ((4 - s.data.length % 4) % 4) '=')

/-! ## SHA-256 (hashlib.sha256), executable -/

/-- Truncation to a 32-bit word. -/
def w32 (n : Nat) : Nat := n % 4294967296

/-- Right rotation of a 32-bit word. -/
def rotr (n x : Nat) : Nat := w32 (x / 2 ^ n + x % 2 ^ n * 2 ^ (32 - n))

/-- SHA-256 Σ₀. -/
def bigS0 (x : Nat) : Nat := rotr 2 x ^^^ rotr 13 x ^^^ rotr 22 x

/-- SHA-256 Σ₁. -/
def bigS1 (x : Nat) : Nat := rotr 6 x ^^^ rotr 11 x ^^^ rotr 25 x

/-- SHA-256 σ₀. -/
def smallS0 (x : Nat) : Nat := rotr 7 x ^^^ rotr 18 x ^^^ x / 8

/-- SHA-256 σ₁. -/
def smallS1 (x : Nat) : Nat := rotr 17 x ^^^ rotr 19 x ^^^ x / 1024

/-- SHA-256 Ch. -/
def chFn (e f g : Nat) : Nat := (e &&& f) ^^^ ((e ^^^ 4294967295) &&& g)

/-- SHA-256 Maj. -/
def majFn (a b c : Nat) : Nat := (a &&& b) ^^^ (a &&& c) ^^^ (b &&& c)

/-- SHA-256 working state (eight 32-bit words). -/
structure Sha256St where
  s0 : Nat
  s1 : Nat
  s2 : Nat
  s3 : Nat
  s4 : Nat
  s5 : Nat
  s6 : Nat
  s7 : Nat

/-- SHA-256 round constants. -/
def sha256K : List Nat :=
  [1116352408, 1899447441, 3049323471, 3921009573,
   961987163, 1508970993, 2453635748, 2870763221,
   3624381080, 310598401, 607225278, 1426881987,
   1925078388, 2162078206, 2614888103, 3248222580,
   3835390401, 4022224774, 264347078, 604807628,
   770255983, 1249150122, 1555081692, 1996064986,
   2554220882, 2821834349, 2952996808, 3210313671,
   3336571891, 3584528711, 113926993, 338241895,
   666307205, 773529912, 1294757372, 1396182291,
   1695183700, 1986661051, 2177026350, 2456956037,
   2730485921, 2820302411, 3259730800, 3345764771,
   3516065817, 3600352804, 4094571909, 275423344,
   430227734, 506948616, 659060556, 883997877,
   958139571, 1322822218, 1537002063, 1747873779,
   1955562222, 2024104815, 2227730452, 2361852424,
   2428436474, 2756734187, 3204031479, 3329325298]

/-- SHA-256 initial hash value. -/
def sha256H0 : Sha256St :=
  ⟨1779033703, 3144134277, 1013904242, 2773480762,
   1359893119, 2600822924, 528734635, 1541459225⟩

/-- One compression round. -/
def sha256Round (st : Sha256St) (kw : Nat × Nat) : Sha256St :=
  let t1 := w32 (st.s7 + bigS1 st.s4 + chFn st.s4 st.s5 st.s6 + kw.1 + kw.2)
  let t2 := w32 (bigS0 st.s0 + majFn st.s0 st.s1 st.s2)
  ⟨w32 (t1 + t2), st.s0, st.s1, st.s2, w32 (st.s3 + t1), st.s4, st.s5, st.s6⟩

/-- 32-bit big-endian words of a byte list (4 bytes per word). -/
def toWords : List Nat → List Nat
  | b0 :: b1 :: b2 :: b3 :: rest =>
    (b0 * 16777216 + b1 * 65536 + b2 * 256 + b3) :: toWords rest
  | _ => []

/-- The 64-entry message schedule of one block. -/
def scheduleOf (block : List Nat) : List Nat :=
  (List.range 48).foldl
    (fun w _ =>
      let t := w.length
      w ++ [w32 (smallS1 (w.getD (t - 2) 0) + w.getD (t - 7) 0 +
                 smallS0 (w.getD (t - 15) 0) + w.getD (t - 16) 0)])
    (toWords block)

/-- Process one 64-byte block. -/
def processBlock (st : Sha256St) (block : List Nat) : Sha256St :=
  let c := (sha256K.zip (scheduleOf block)).foldl sha256Round st
  ⟨w32 (st.s0 + c.s0), w32 (st.s1 + c.s1), w32 (st.s2 + c.s2), w32 (st.s3 + c.s3),
   w32 (st.s4 + c.s4), w32 (st.s5 + c.s5), w32 (st.s6 + c.s6), w32 (st.s7 + c.s7)⟩

/-- Accumulator for `toBlocks`: `acc` holds the current chunk reversed and
`n` the remaining capacity of the chunk (structural recursion on the list so
the kernel can evaluate it). -/
def toBlocksAux : List Nat → List Nat → Nat → List (List Nat)
  | [], acc, _ => if acc = [] then [] else [acc.reverse]
  | _ :: _, _, 0 => []
  | x :: xs, acc, n + 1 =>
    if n = 0 then (x :: acc).reverse :: toBlocksAux xs [] 64
    else toBlocksAux xs (x :: acc) n

/-- Split a (padded) message into 64-byte blocks. -/
def toBlocks (l : List Nat) : List (List Nat) :=
  toBlocksAux l [] 64

/-- The big-endian bytes of a 32-bit word. -/
def wordBytes (w : Nat) : List Nat :=
  [w / 16777216 % 256, w / 65536 % 256, w / 256 % 256, w % 256]

/-- The 32 digest bytes of a final state. -/
def digestOf (st : Sha256St) : List Nat :=
  wordBytes st.s0 ++ wordBytes st.s1 ++ wordBytes st.s2 ++ wordBytes st.s3 ++
  wordBytes st.s4 ++ wordBytes st.s5 ++ wordBytes st.s6 ++ wordBytes st.s7

/-- SHA-256 of a byte list (`hashlib.sha256(...).digest()`). -/
def sha256 (msg : List Nat) : List Nat :=
  let lenBytes := [56, 48, 40, 32, 24, 16, 8, 0].map (fun i => 8 * msg.length / 2 ^ i % 256)
  let padded := msg ++ 128 :: List.replicate ((119 - msg.length % 64) % 64) 0 ++ lenBytes
  digestOf ((toBlocks padded).foldl processBlock sha256H0)

/-- The bytes of an ASCII string (`str.encode('utf-8')` for the ASCII-only
strings this client produces). -/
def asciiBytes (s : String) : List Nat := s.data.map Char.toNat

/-! ## PKCE generator (`BrinkOAuthClient._generate_pkce`, lines 35–41) -/

/-- `_generate_pkce`, with the output of `secrets.token_bytes(32)` passed in
as the `randomBytes` parameter:
`code_verifier = urlsafe_b64encode(randomBytes).rstrip('=')`,
`code_challenge = urlsafe_b64encode(sha256(code_verifier ascii)).rstrip('=')`. -/
def generate_pkce (randomBytes : List Nat) : String × String :=
  let code_verifier := rstripEq (urlsafe_b64encode randomBytes)
  let code_challenge := rstripEq (urlsafe_b64encode (sha256 (asciiBytes code_verifier)))
  (code_verifier, code_challenge)

/-! ## Network model and session state -/

/-- One HTTP response as observed by the client: status, the `Location`
header (`headers.get('Location', '')`), the body text, whether
`response.json()` parses, and the parsed JSON object as a string-valued
association list. -/
structure Response where
  status : Nat
  location : String
  body : String
  jsonOk : Bool
  tokens : List (String × String)
deriving DecidableEq

/-- Outcome of one HTTP request: a response, or a raised transport
exception. -/
inductive NetEvent where
  | ok (r : Response)
  | exn
deriving DecidableEq

/-- The network oracle: the event produced by the n-th HTTP request the
client makes.  Requests are counted by an index threaded through the flow. -/
abbrev Net := Nat → NetEvent

/-- The mutable token state of `BrinkOAuthClient` (lines 31–32):
`_access_token` and `_refresh_token`, `none` until assigned. -/
structure OAuthState where
  access_token : Option String
  refresh_token : Option String
deriving DecidableEq

/-- The login form body of lines 128–135; `button='login'` and
`RememberLogin='false'` are constants and not modelled as fields. -/
structure LoginData where
  username : String
  password : String
  returnUrl : String
  antiforgery : String
deriving DecidableEq

/-- Result of one flow method: the returned boolean, the token state after
the call, the next request index, and the login POST bodies submitted. -/
structure FlowOut where
  ok : Bool
  st : OAuthState
  next : Nat
  posts : List LoginData
deriving DecidableEq

/-- Payload of an uncaught Python exception inside `authenticate`: the next
request index and the login POSTs already performed. -/
abbrev AuthExc := Nat × List LoginData

/-- The login POSTs recorded in either outcome of a flow body. -/
def postsOf : Except AuthExc FlowOut → List LoginData
  | Except.ok out => out.posts
  | Except.error (_, ps) => ps

/-- `BrinkOAuthClient.get_auth_headers` (lines 301–308).  Python's
`if not self._access_token` treats both `None` and the empty string as
falsy. -/
def get_auth_headers (st : OAuthState) : List (String × String) :=
  if st.access_token = none ∨ st.access_token = some "" then []
  else [("Authorization", "Bearer " ++ (st.access_token.getD ""))]

/-- `BrinkOAuthClient.is_authenticated` (lines 310–313):
`self._access_token is not None`. -/
def is_authenticated (st : OAuthState) : Bool :=
  st.access_token.isSome

/-- `BrinkOAuthClient._exchange_code_for_token` (lines 233–265).  The method
has its own `try/except` returning `False`, so it is total: a transport
exception or a `response.json()` failure yields `False` with the state
untouched; on HTTP 200 with parseable JSON both tokens are overwritten from
the body (`dict.get`, so a missing key stores `None`) and `True` is
returned.  `code` and `code_verifier` only appear in the POSTed form, which
the network oracle abstracts over. -/
def exchange_code_for_token (st : OAuthState) (net : Net) (k : Nat)
    (code code_verifier : String) : Bool × OAuthState × Nat :=
  match net k with
  | .exn => (false, st, k + 1)
  | .ok r =>
    if r.status ≠ 200 then (false, st, k + 1)
    else if r.jsonOk = false then (false, st, k + 1)
    else
      (true,
       ⟨r.tokens.lookup "access_token", r.tokens.lookup "refresh_token"⟩,
       k + 1)

/-- The loop of `_follow_redirects_for_code` (lines 172–200), with
`fuel = max_redirects - redirect_count`.  Per iteration: an empty (falsy)
location or exhausted bound stops with `None`; a location carrying a `code`
query parameter returns it before any request; otherwise one GET is issued
(relative locations are made absolute first, which the oracle abstracts
over) and only a 302 continues the chain with the new `Location` header —
a 200, any other status, or a raised exception breaks out with `None`. -/
def follow_loop (net : Net) : Nat → String → Nat → Option String × Nat
  | 0, _, k => (none, k)
  | fuel + 1, location, k =>
    if location = "" then (none, k)
    else
      match extract_code location with
      | some code => (some code, k)
      | none =>
        match net k with
        | .exn => (none, k + 1)
        | .ok r =>
          if r.status = 302 then follow_loop net fuel r.location (k + 1)
          else (none, k + 1)

/-- `BrinkOAuthClient._follow_redirects_for_code` (lines 166–202):
`max_redirects = 10`. -/
def follow_redirects_for_code (net : Net) (k : Nat) (initial_location : String) :
    Option String × Nat :=
  follow_loop net 10 initial_location k

/-- Steps 2–5 of `authenticate` (lines 105–160), starting from the fetched
login-page HTML.  Mirrors the source: fail without a form action (the
falsy-check also covers an empty action); compute `ReturnUrl` from the
hidden field, falling back to the form action's own query string when the
hidden field gave an empty string and the action contains `'ReturnUrl='`
(lines 114–120, with `query_params.get('ReturnUrl', [''])[0]`); POST the
credentials (a non-302 answer only logs the scraped error message and
fails); follow the redirect chain; exchange the code.  A transport
exception at the POST is uncaught here (handled by `authenticate`'s outer
`except`). -/
def authenticateFromHtml (username password code_verifier : String) (st : OAuthState)
    (net : Net) (k : Nat) (html : String) : Except AuthExc FlowOut :=
  match extract_form_action html with
  | none => .ok ⟨false, st, k, []⟩
  | some form_action =>
    if form_action = "" then .ok ⟨false, st, k, []⟩
    else
      let antiforgery_token := extract_antiforgery_token html
      let hidden := extract_return_url html
      let return_url :=
        if hidden = "" ∧ substrIn "ReturnUrl=" form_action then
          (qsFirst (urlQuery form_action) "ReturnUrl").getD ""
        else hidden
      let login_data : LoginData := ⟨username, password, return_url, antiforgery_token⟩
      match net k with
      | .exn => .error (k + 1, [login_data])
      | .ok r =>
        if r.status ≠ 302 then .ok ⟨false, st, k + 1, [login_data]⟩
        else
          match follow_redirects_for_code net (k + 1) r.location with
          | (none, k2) => .ok ⟨false, st, k2, [login_data]⟩
          | (some code, k2) =>
            match exchange_code_for_token st net k2 code code_verifier with
            | (b, st2, k3) => .ok ⟨b, st2, k3, [login_data]⟩

/-- The body of `authenticate` (lines 53–160), before the outer
`try/except`: uncaught transport exceptions are `Except.error`.  The PKCE
pair is generated from the supplied random bytes (`state`/`nonce` and the
authorization URL never influence the modelled control flow).  Branches on
the authorization response exactly as lines 76–103: 400 fails; 302 either
carries a `code` in its `Location` (exchange immediately) or is followed
once to fetch the login page (non-200 fails); 200 is the login page
directly; anything else fails. -/
def authenticateBody (username password : String) (randomBytes : List Nat)
    (st : OAuthState) (net : Net) (k : Nat) : Except AuthExc FlowOut :=
  let code_verifier := (generate_pkce randomBytes).1
  match net k with
  | .exn => .error (k + 1, [])
  | .ok r =>
    if r.status = 400 then .ok ⟨false, st, k + 1, []⟩
    else if r.status = 302 then
      match extract_code r.location with
      | some code =>
        match exchange_code_for_token st net (k + 1) code code_verifier with
        | (b, st2, k2) => .ok ⟨b, st2, k2, []⟩
      | none =>
        match net (k + 1) with
        | .exn => .error (k + 2, [])
        | .ok lp =>
          if lp.status ≠ 200 then .ok ⟨false, st, k + 2, []⟩
          else authenticateFromHtml username password code_verifier st net (k + 2) lp.body
    else if r.status = 200 then
      authenticateFromHtml username password code_verifier st net (k + 1) r.body
    else .ok ⟨false, st, k + 1, []⟩

/-- `BrinkOAuthClient.authenticate` (lines 43–164): the body wrapped in the
outer `try/except Exception` of lines 53 and 162–164, which turns any
uncaught exception into `False` without touching the token state. -/
def authenticate (username password : String) (randomBytes : List Nat)
    (st : OAuthState) (net : Net) (k : Nat) : FlowOut :=
  match authenticateBody username password randomBytes st net k with
  | .ok out => out
  | .error (e, ps) => ⟨false, st, e, ps⟩

/-- `BrinkOAuthClient.refresh_access_token` (lines 267–299).  A falsy
(`None` or empty) refresh token delegates to `authenticate`; a non-200
refresh response falls back to `authenticate`; a transport exception or a
`response.json()` failure is caught by the `except` of lines 297–299 which
also falls back to `authenticate`; on 200 with parseable JSON the access
token is overwritten (`dict.get`) and the refresh token replaced only when
the response carries one. -/
def refresh_access_token (username password : String) (randomBytes : List Nat)
    (st : OAuthState) (net : Net) (k : Nat) : FlowOut :=
  if st.refresh_token = none ∨ st.refresh_token = some "" then
    authenticate username password randomBytes st net k
  else
    match net k with
    | .exn => authenticate username password randomBytes st net (k + 1)
    | .ok r =>
      if r.status ≠ 200 then authenticate username password randomBytes st net (k + 1)
      else if r.jsonOk = false then
        authenticate username password randomBytes st net (k + 1)
      else
        let access := r.tokens.lookup "access_token"
        let st2 : OAuthState :=
          match r.tokens.lookup "refresh_token" with
          | some rt => ⟨access, some rt⟩
          | none => ⟨access, st.refresh_token⟩
        ⟨true, st2, k + 1, []⟩

/-! ## Evaluation checks of the embedded library functions -/

example :
    extract_form_action "<p><form method=\"post\" action=\"/idsrv/login?x=1\"><input></form>" =
      some "/idsrv/login?x=1" := by decide
example : extract_form_action "<form action=\"A\"><form action=\"B\">" = some "A" := by decide
example : extract_form_action "no form here" = none := by decide
example :
    extract_antiforgery_token
      "<input type=\"hidden\" name=\"__RequestVerificationToken\" value=\"tok1\" />" = "tok1" := by
  decide
example : extract_return_url "<form action=\"/x\">" = "" := by decide
example :
    extract_return_url "<input name=\"ReturnUrl\" type=\"hidden\" value=\"/app?a=b\" />" =
      "/app?a=b" := by decide

example : extract_code "" = none := by decide
example : extract_code "https://www.brink-home.com/app?code=abc123&state=S" = some "abc123" := by
  decide
example : extract_code "https://h/p?state=S" = none := by decide
example : extract_code "/idsrv/login?ReturnUrl=%2Fapp" = none := by decide
example : qsFirst (urlQuery "/idsrv/login?ReturnUrl=%2Fapp") "ReturnUrl" = some "/app" := by
  decide

-- Known-answer test: SHA-256("abc") =
-- ba7816bf 8f01cfea 414140de 5dae2223 b00361a3 96177a9c b410ff61 f20015ad
example :
    sha256 (asciiBytes "abc") =
      [186, 120, 22, 191, 143, 1, 207, 234, 65, 65, 64, 222, 93,
       174, 34, 35, 176, 3, 97, 163, 150, 23, 122, 156, 180, 16,
       255, 97, 242, 0, 21, 173] := by decide

-- Known-answer test for base64url with padding: encode [251, 239] = "--8="
example : urlsafe_b64encode [251, 239] = "--8=" := by decide
example : urlsafe_b64decode "--8=" = [251, 239] := by decide

/-! ## Base64 lemmas -/

/-- Decoding the 6-bit groups of a byte list restores the bytes. -/
theorem b64Bytes_b64Indices : ∀ bs : List Nat, (∀ b ∈ bs, b < 256) →
    b64Bytes (b64Indices bs) = bs
  | [], _ => rfl
  | [a], h => by
    have ha : a < 256 := h a (by simp)
    simp [b64Indices, b64Bytes]
    omega
  | [a, b], h => by
    have ha : a < 256 := h a (by simp)
    have hb : b < 256 := h b (by simp)
    simp [b64Indices, b64Bytes]
    omega
  | a :: b :: c :: rest, h => by
    have ha : a < 256 := h a (by simp)
    have hb : b < 256 := h b (by simp)
    have hc : c < 256 := h c (by simp)
    have ih := b64Bytes_b64Indices rest (fun x hx => h x (by simp [hx]))
    simp [b64Indices, b64Bytes, ih]
    omega

/-- All 6-bit groups of a valid byte list are below 64. -/
theorem b64Indices_lt64 : ∀ bs : List Nat, (∀ b ∈ bs, b < 256) →
    ∀ i ∈ b64Indices bs, i < 64
  | [], _ => by simp [b64Indices]
  | [a], h => by
    have ha := h a (by simp)
    simp [b64Indices]
    omega
  | [a, b], h => by
    have ha := h a (by simp)
    have hb := h b (by simp)
    simp [b64Indices]
    omega
  | a :: b :: c :: rest, h => by
    have ha := h a (by simp)
    have hb := h b (by simp)
    have hc := h c (by simp)
    have ih := b64Indices_lt64 rest (fun x hx => h x (by simp [hx]))
    intro i hi
    simp [b64Indices] at hi
    rcases hi with rfl | rfl | rfl | rfl | hi
    · omega
    · omega
    · omega
    · omega
    · exact ih i hi

/-- The alphabet lookup inverts the encoding character map. -/
theorem b64CharVal_b64Char : ∀ i, i < 64 → b64CharVal (b64Char i) = i := by decide

/-- No alphabet character is the padding character. -/
theorem b64Char_ne_pad : ∀ i, i < 64 → b64Char i ≠ '=' := by decide

/-- `dropWhile` skips a prefix on which the predicate holds. -/
theorem dropWhile_all_true {α : Type} (p : α → Bool) :
    ∀ l1 l2 : List α, (∀ x ∈ l1, p x = true) →
      (l1 ++ l2).dropWhile p = l2.dropWhile p
  | [], _, _ => rfl
  | x :: xs, l2, h => by
    simp only [List.cons_append, List.dropWhile_cons, h x (by simp)]
    exact dropWhile_all_true p xs l2 (fun y hy => h y (by simp [hy]))

/-- `dropWhile` keeps a list on which the predicate never holds. -/
theorem dropWhile_all_false {α : Type} (p : α → Bool) :
    ∀ l : List α, (∀ x ∈ l, p x = false) → l.dropWhile p = l
  | [], _ => rfl
  | x :: _, h => by simp [List.dropWhile_cons, h x (by simp)]

/-- `takeWhile` passes over a prefix on which the predicate holds. -/
theorem takeWhile_all_true {α : Type} (p : α → Bool) :
    ∀ l1 l2 : List α, (∀ x ∈ l1, p x = true) →
      (l1 ++ l2).takeWhile p = l1 ++ l2.takeWhile p
  | [], _, _ => rfl
  | x :: xs, l2, h => by
    simp only [List.cons_append, List.takeWhile_cons, h x (by simp)]
    simp [takeWhile_all_true p xs l2 (fun y hy => h y (by simp [hy]))]

/-- `takeWhile` of a failing replicated element is empty. -/
theorem takeWhile_replicate_false {α : Type} (p : α → Bool) (c : α) (h : p c = false) :
    ∀ j, (List.replicate j c).takeWhile p = []
  | 0 => rfl
  | _ + 1 => by simp [List.replicate, List.takeWhile_cons, h]

/-- The padding appended by the encoder consists of `=` only. -/
theorem b64Pad_all (n : Nat) : ∀ c ∈ b64Pad n, c = '=' := by
  unfold b64Pad
  split <;> simp_all

/-- Stripping the padding of an encoded byte list leaves exactly the mapped
6-bit groups. -/
theorem encode_rstrip (bs : List Nat) (h : ∀ b ∈ bs, b < 256) :
    rstripEq (urlsafe_b64encode bs) = String.mk ((b64Indices bs).map b64Char) := by
  have hne : ∀ x ∈ (b64Indices bs).map b64Char, x ≠ '=' := by
    intro x hx
    rcases List.mem_map.mp hx with ⟨i, hi, rfl⟩
    exact b64Char_ne_pad i (b64Indices_lt64 bs h i hi)
  show String.mk _ = _
  apply congrArg String.mk
  show ((((b64Indices bs).map b64Char ++ b64Pad bs.length).reverse).dropWhile _).reverse = _
  rw [List.reverse_append]
  rw [dropWhile_all_true _ _ _
    (fun x hx => by simp [b64Pad_all bs.length x (List.mem_reverse.mp hx)])]
  rw [dropWhile_all_false _ _
    (fun x hx => by simp [hne x (List.mem_reverse.mp hx)])]
  exact List.reverse_reverse _

/-- A stripped encoding contains no padding character. -/
theorem rstrip_encode_no_pad (bs : List Nat) (h : ∀ b ∈ bs, b < 256) :
    '=' ∉ (rstripEq (urlsafe_b64encode bs)).data := by
  rw [encode_rstrip bs h]
  intro hmem
  rcases List.mem_map.mp hmem with ⟨i, hi, hchar⟩
  exact b64Char_ne_pad i (b64Indices_lt64 bs h i hi) hchar

/-- Mapping back through the alphabet is the identity on valid groups. -/
theorem map_b64CharVal_b64Char : ∀ l : List Nat, (∀ i ∈ l, i < 64) →
    (l.map b64Char).map b64CharVal = l
  | [], _ => rfl
  | x :: xs, h => by
    simp only [List.map_cons, b64CharVal_b64Char x (h x (by simp))]
    simp [map_b64CharVal_b64Char xs (fun y hy => h y (by simp [hy]))]

/-- Restoring padding and base64url-decoding inverts encode-then-strip on
valid byte lists. -/
theorem decode_restorePad_rstrip_encode (bs : List Nat) (h : ∀ b ∈ bs, b < 256) :
    urlsafe_b64decode (restorePad (rstripEq (urlsafe_b64encode bs))) = bs := by
  have hne : ∀ x ∈ (b64Indices bs).map b64Char, x ≠ '=' := by
    intro x hx
    rcases List.mem_map.mp hx with ⟨i, hi, rfl⟩
    exact b64Char_ne_pad i (b64Indices_lt64 bs h i hi)
  rw [encode_rstrip bs h]
  show b64Bytes ((List.takeWhile _ (((b64Indices bs).map b64Char) ++ _)).map b64CharVal) = bs
  rw [takeWhile_all_true _ _ _ (fun x hx => by simp [hne x hx])]
  rw [takeWhile_replicate_false _ _ (by decide), List.append_nil]
  rw [map_b64CharVal_b64Char _ (b64Indices_lt64 bs h)]
  exact b64Bytes_b64Indices bs h

/-! ## SHA-256 digest bounds -/

/-- The four big-endian bytes of a word are bytes. -/
theorem wordBytes_lt (w : Nat) : ∀ b ∈ wordBytes w, b < 256 := by
  simp [wordBytes]
  omega

/-- Every byte of a serialized state is below 256. -/
theorem digestOf_lt (st : Sha256St) : ∀ b ∈ digestOf st, b < 256 := by
  intro b hb
  unfold digestOf at hb
  rcases List.mem_append.mp hb with h1 | h
  case inr => exact wordBytes_lt _ _ h
  rcases List.mem_append.mp h1 with h2 | h
  case inr => exact wordBytes_lt _ _ h
  rcases List.mem_append.mp h2 with h3 | h
  case inr => exact wordBytes_lt _ _ h
  rcases List.mem_append.mp h3 with h4 | h
  case inr => exact wordBytes_lt _ _ h
  rcases List.mem_append.mp h4 with h5 | h
  case inr => exact wordBytes_lt _ _ h
  rcases List.mem_append.mp h5 with h6 | h
  case inr => exact wordBytes_lt _ _ h
  rcases List.mem_append.mp h6 with h7 | h
  case inr => exact wordBytes_lt _ _ h
  exact wordBytes_lt _ _ h7

/-- Every digest byte is below 256. -/
theorem sha256_byte_lt (msg : List Nat) : ∀ b ∈ sha256 msg, b < 256 := by
  unfold sha256
  exact digestOf_lt _

/-- C3: for every pair produced by the PKCE generator from 32 valid random
bytes, base64url-decoding the challenge after restoring padding yields the
SHA-256 digest of the verifier's ASCII bytes, the verifier is the stripped
base64url encoding of the random bytes, and neither string contains the
padding character `=`. -/
theorem pkce_spec (bs : List Nat) (hlen : bs.length = 32) (hlt : ∀ b ∈ bs, b < 256) :
    urlsafe_b64decode (restorePad (generate_pkce bs).2)
        = sha256 (asciiBytes (generate_pkce bs).1)
    ∧ (generate_pkce bs).1 = rstripEq (urlsafe_b64encode bs)
    ∧ '=' ∉ ((generate_pkce bs).1).data
    ∧ '=' ∉ ((generate_pkce bs).2).data := by
  have hdig := sha256_byte_lt (asciiBytes (rstripEq (urlsafe_b64encode bs)))
  exact ⟨decode_restorePad_rstrip_encode _ hdig, rfl,
    rstrip_encode_no_pad bs hlt, rstrip_encode_no_pad _ hdig⟩

/-- Witness for C3 at a concrete input: the all-zero 32-byte random string. -/
theorem pkce_spec_witness :
    urlsafe_b64decode (restorePad (generate_pkce (List.replicate 32 0)).2)
        = sha256 (asciiBytes (generate_pkce (List.replicate 32 0)).1)
    ∧ '=' ∉ ((generate_pkce (List.replicate 32 0)).1).data
    ∧ '=' ∉ ((generate_pkce (List.replicate 32 0)).2).data := by
  obtain ⟨h1, _, h3, h4⟩ := pkce_spec (List.replicate 32 0) (by decide) (by decide)
  exact ⟨h1, h3, h4⟩

/-! ## Query extraction (C6) -/

/-- `find?` keyed on the first component returns the common value when a key
is present and every entry with that key carries the same value. -/
theorem find_key_unique_value (key v : String) :
    ∀ l : List (String × String), (key, v) ∈ l →
      (∀ p ∈ l, p.1 = key → p.2 = v) →
      (l.find? (fun p => p.1 == key)).map (fun p => p.2) = some v
  | [], hmem, _ => absurd hmem (List.not_mem_nil _)
  | q :: t, hmem, hval => by
    by_cases hq : q.1 = key
    · have : q.2 = v := hval q (by simp) hq
      simp [List.find?_cons, hq, this]
    · have hmem' : (key, v) ∈ t := by
        rcases List.mem_cons.mp hmem with heq | ht
        · exact absurd (congrArg Prod.fst heq.symm) hq
        · exact ht
      have hfind := find_key_unique_value key v t hmem' (fun p hp => hval p (by simp [hp]))
      simpa [List.find?_cons, hq] using hfind

/-- C6: `extract_code` returns not-found on the empty URL and on any URL
whose parsed query has no `code` parameter; on any URL whose parsed query
contains a `code=abc123` entry (and whose `code` entries all carry that
value — the source returns the first `code` value), it returns `abc123`,
whatever other parameters are present and in whatever order. -/
theorem extract_code_spec :
    extract_code "" = none
    ∧ (∀ url : String, (∀ p ∈ qsPairs (urlQuery url), p.1 ≠ "code") →
        extract_code url = none)
    ∧ (∀ url : String, ("code", "abc123") ∈ qsPairs (urlQuery url) →
        (∀ p ∈ qsPairs (urlQuery url), p.1 = "code" → p.2 = "abc123") →
        extract_code url = some "abc123") := by
  refine ⟨rfl, ?_, ?_⟩
  · intro url h
    unfold extract_code qsFirst
    split
    · rfl
    · rw [List.find?_eq_none.mpr (fun p hp => by simp [h p hp])]
      rfl
  · intro url hmem hval
    have hne : url ≠ "" := by
      intro h0
      rw [h0] at hmem
      simp [qsPairs, urlQuery, splitFirst, splitOnChar] at hmem
    unfold extract_code qsFirst
    simp only [hne, if_false]
    exact find_key_unique_value "code" "abc123" _ hmem hval

/-- Witness for C6: a URL with reordered extra parameters, and one without a
`code` parameter. -/
theorem extract_code_spec_witness :
    extract_code "https://h/p?b=2&code=abc123&a=1" = some "abc123"
    ∧ extract_code "https://h/p?a=1&b=2" = none := by
  constructor
  · exact extract_code_spec.2.2 "https://h/p?b=2&code=abc123&a=1" (by decide) (by decide)
  · exact extract_code_spec.2.1 "https://h/p?a=1&b=2" (by decide)

/-! ## Auth headers (C5) -/

/-- C5 counterexample: the claim says a held access token always produces
the single bearer header, but Python's `if not self._access_token` also
treats a held empty-string token as falsy, so the empty header map is
returned although `access_token` is present. -/
theorem get_auth_headers_claim_cex :
    ¬ (∀ st : OAuthState, ∀ t, st.access_token = some t →
        get_auth_headers st = [("Authorization", "Bearer " ++ t)]) := by
  intro h
  have := h ⟨some "", none⟩ "" rfl
  exact absurd this (by decide)

/-- C5 (amended): `get_auth_headers` returns the empty header map when the
access token is absent or the empty string, and otherwise exactly the single
bearer header; with stored token `T1` it returns `Bearer T1`. -/
theorem get_auth_headers_spec (st : OAuthState) :
    ((st.access_token = none ∨ st.access_token = some "") → get_auth_headers st = [])
    ∧ (∀ t, st.access_token = some t → t ≠ "" →
        get_auth_headers st = [("Authorization", "Bearer " ++ t)]) := by
  constructor
  · intro h
    simp [get_auth_headers, h]
  · intro t ht hne
    have : ¬ (st.access_token = none ∨ st.access_token = some "") := by
      rw [ht]
      simp [hne]
    simp [get_auth_headers, this, ht]
    exact hne

/-- Witness for C5 (amended): stored token `T1` yields the bearer header of
the end-to-end scenario. -/
theorem get_auth_headers_spec_witness :
    get_auth_headers ⟨some "T1", some "R1"⟩ = [("Authorization", "Bearer T1")] := by
  exact (get_auth_headers_spec ⟨some "T1", some "R1"⟩).2 "T1" rfl (by decide)

/-! ## Redirect follower (C4, C10) -/

/-- When every consumed response is a 302 and no inspected location carries
a code, the loop consumes exactly its fuel in GET requests and returns
not-found.  The location delivered by the final consumed response needs no
hypotheses: the loop never inspects it. -/
theorem follow_loop_exhausts (net : Net) :
    ∀ fuel k (loc : String),
      (fuel ≠ 0 → loc ≠ "" ∧ extract_code loc = none) →
      (∀ i, i < fuel → ∃ resp, net (k + i) = NetEvent.ok resp ∧ resp.status = 302 ∧
          (i + 1 < fuel → resp.location ≠ "" ∧ extract_code resp.location = none)) →
      follow_loop net fuel loc k = (none, k + fuel)
  | 0, k, loc, _, _ => rfl
  | fuel + 1, k, loc, hloc, hnet => by
    obtain ⟨hne, hcode⟩ := hloc (Nat.succ_ne_zero fuel)
    obtain ⟨resp, hk, h302, hrest⟩ := hnet 0 (Nat.succ_pos fuel)
    rw [Nat.add_zero] at hk
    have ih := follow_loop_exhausts net fuel (k + 1) resp.location
      (fun hf => hrest (by omega))
      (fun i hi => by
        obtain ⟨r2, hk2, h3022, hr2⟩ := hnet (i + 1) (by omega)
        exact ⟨r2, by rw [show k + 1 + i = k + (i + 1) by omega]; exact hk2, h3022,
          fun hlt => hr2 (by omega)⟩)
    unfold follow_loop
    simp only [if_neg hne, hcode, hk, h302, if_true]
    rw [show k + (fuel + 1) = k + 1 + fuel by omega]
    exact ih

/-- C4: against a server that answers every GET with a 302 carrying a fresh,
code-free, non-empty `Location`, `_follow_redirects_for_code` performs
exactly 10 GET hops (the returned request index advances by exactly 10) and
returns not-found instead of looping forever. -/
theorem follow_redirects_bound (net : Net) (k : Nat) (loc : String)
    (hloc : loc ≠ "") (hcode : extract_code loc = none)
    (hnet : ∀ i, i < 10 → ∃ resp, net (k + i) = NetEvent.ok resp ∧ resp.status = 302 ∧
        resp.location ≠ "" ∧ extract_code resp.location = none) :
    follow_redirects_for_code net k loc = (none, k + 10) := by
  refine follow_loop_exhausts net 10 k loc (fun _ => ⟨hloc, hcode⟩) (fun i hi => ?_)
  obtain ⟨resp, h1, h2, h3, h4⟩ := hnet i hi
  exact ⟨resp, h1, h2, fun _ => ⟨h3, h4⟩⟩

/-- Witness for C4: the constant always-302 server. -/
theorem follow_redirects_bound_witness :
    follow_redirects_for_code (fun _ => NetEvent.ok ⟨302, "/next", "", true, []⟩) 0 "/start"
      = (none, 10) := by
  exact follow_redirects_bound (fun _ => NetEvent.ok ⟨302, "/next", "", true, []⟩) 0 "/start"
    (by decide) (by decide)
    (fun i _ => ⟨⟨302, "/next", "", true, []⟩, rfl, rfl, by decide, by decide⟩)

/-- C10: the follower checks for a code only before fetching a location, so
the `Location` header of the 10th and final GET is never inspected — even
when that final location does carry an authorization code, the result is
not-found. -/
theorem follow_redirects_last_location_ignored (net : Net) (k : Nat) (loc : String)
    (resp : Nat → Response) (c : String)
    (hloc : loc ≠ "") (hcode : extract_code loc = none)
    (hnet : ∀ i, i < 10 → net (k + i) = NetEvent.ok (resp i) ∧ (resp i).status = 302)
    (hmid : ∀ i, i < 9 → (resp i).location ≠ "" ∧ extract_code (resp i).location = none)
    (hlast : extract_code ((resp 9).location) = some c) :
    follow_redirects_for_code net k loc = (none, k + 10) := by
  refine follow_loop_exhausts net 10 k loc (fun _ => ⟨hloc, hcode⟩) (fun i hi => ?_)
  obtain ⟨h1, h2⟩ := hnet i hi
  exact ⟨resp i, h1, h2, fun hlt => hmid i (by omega)⟩

/-- Witness for C10: a 10-hop chain whose code appears only in the final
`Location`. -/
theorem follow_redirects_last_location_ignored_witness :
    follow_redirects_for_code
        (fun i => NetEvent.ok (if i = 9 then ⟨302, "/app?code=XYZ", "", true, []⟩
                               else ⟨302, "/hop", "", true, []⟩))
        0 "/start"
      = (none, 10) := by
  exact follow_redirects_last_location_ignored
    (fun i => NetEvent.ok (if i = 9 then ⟨302, "/app?code=XYZ", "", true, []⟩
                           else ⟨302, "/hop", "", true, []⟩))
    0 "/start"
    (fun i => if i = 9 then ⟨302, "/app?code=XYZ", "", true, []⟩ else ⟨302, "/hop", "", true, []⟩)
    "XYZ" (by decide) (by decide) (by decide) (by decide) (by decide)

/-! ## Refresh fallback (C1) -/

/-- C1: `refresh_access_token` with no (falsy) refresh token is exactly
`authenticate`; with a held refresh token, a transport exception, a non-200
status, or an unparseable 200 body all delegate to `authenticate` (one
request later), and a parseable 200 refresh returns `True` — the refresh
path never surfaces a fatal error of its own, its outcome is the boolean of
whichever path was taken. -/
theorem refresh_fallback (u p : String) (rng : List Nat) (st : OAuthState) (net : Net)
    (k : Nat) :
    ((st.refresh_token = none ∨ st.refresh_token = some "") →
      refresh_access_token u p rng st net k = authenticate u p rng st net k)
    ∧ (st.refresh_token ≠ none → st.refresh_token ≠ some "" →
        (net k = NetEvent.exn →
          refresh_access_token u p rng st net k = authenticate u p rng st net (k + 1))
        ∧ (∀ r, net k = NetEvent.ok r → r.status ≠ 200 →
          refresh_access_token u p rng st net k = authenticate u p rng st net (k + 1))
        ∧ (∀ r, net k = NetEvent.ok r → r.status = 200 → r.jsonOk = false →
          refresh_access_token u p rng st net k = authenticate u p rng st net (k + 1))
        ∧ (∀ r, net k = NetEvent.ok r → r.status = 200 → r.jsonOk = true →
          (refresh_access_token u p rng st net k).ok = true)) := by
  constructor
  · intro h
    unfold refresh_access_token
    rw [if_pos h]
  · intro h1 h2
    have hcond : ¬ (st.refresh_token = none ∨ st.refresh_token = some "") := by
      rintro (h | h)
      · exact h1 h
      · exact h2 h
    refine ⟨?_, ?_, ?_, ?_⟩
    · intro hexn
      simp [refresh_access_token, hcond, hexn]
    · intro r hk h200
      simp [refresh_access_token, hcond, hk, h200]
    · intro r hk h200 hj
      simp [refresh_access_token, hcond, hk, h200, hj]
    · intro r hk h200 hj
      simp [refresh_access_token, hcond, hk, h200, hj]

/-- Witness for C1: a held refresh token and a 401 refresh response make
`refresh_access_token` equal to a full `authenticate` run. -/
theorem refresh_fallback_witness :
    refresh_access_token "u" "p" [] ⟨none, some "R"⟩
        (fun _ => NetEvent.ok ⟨401, "", "", true, []⟩) 0
      = authenticate "u" "p" [] ⟨none, some "R"⟩
        (fun _ => NetEvent.ok ⟨401, "", "", true, []⟩) 1 := by
  exact ((refresh_fallback "u" "p" [] ⟨none, some "R"⟩
      (fun _ => NetEvent.ok ⟨401, "", "", true, []⟩) 0).2
    (by decide) (by decide)).2.1 ⟨401, "", "", true, []⟩ rfl (by decide)

/-! ## Authenticate never raises (C2) -/

/-- C2: for every network behaviour `authenticate` yields a boolean, and
whenever its body ends in an uncaught transport exception the outer
`except` handler turns it into `False` with the token state untouched —
no exception reaches the caller. -/
theorem authenticate_no_uncaught (u p : String) (rng : List Nat) (st : OAuthState)
    (net : Net) (k : Nat) :
    ((authenticate u p rng st net k).ok = true ∨ (authenticate u p rng st net k).ok = false)
    ∧ (∀ e ps, authenticateBody u p rng st net k = Except.error (e, ps) →
        (authenticate u p rng st net k).ok = false
        ∧ (authenticate u p rng st net k).st = st) := by
  constructor
  · cases h : (authenticate u p rng st net k).ok
    · exact Or.inr rfl
    · exact Or.inl rfl
  · intro e ps h
    unfold authenticate
    rw [h]
    exact ⟨rfl, rfl⟩

/-- Witness for C2: a transport exception at the very first request. -/
theorem authenticate_no_uncaught_witness :
    (authenticate "u" "p" [] ⟨none, none⟩ (fun _ => NetEvent.exn) 0).ok = false
    ∧ (authenticate "u" "p" [] ⟨none, none⟩ (fun _ => NetEvent.exn) 0).st = ⟨none, none⟩ := by
  exact (authenticate_no_uncaught "u" "p" [] ⟨none, none⟩ (fun _ => NetEvent.exn) 0).2 1 [] rfl

/-! ## Failed authentication leaves tokens unchanged (C7) -/

/-- A failing token exchange never modifies the token state. -/
theorem exchange_code_failure_state (st : OAuthState) (net : Net) (k : Nat) (c v : String) :
    (exchange_code_for_token st net k c v).1 = false →
    (exchange_code_for_token st net k c v).2.1 = st := by
  cases hnk : net k with
  | exn =>
    intro _
    simp [exchange_code_for_token, hnk]
  | ok r =>
    by_cases h200 : r.status = 200
    · by_cases hj : r.jsonOk = false
      · intro _
        simp [exchange_code_for_token, hnk, h200, hj]
      · intro hfalse
        exfalso
        simp [exchange_code_for_token, hnk, h200, hj] at hfalse
    · intro _
      simp [exchange_code_for_token, hnk, h200]

/-- The post-login part of the flow preserves the token state on every
failing branch. -/
theorem fromHtml_failure_state (u p cv : String) (st : OAuthState) (net : Net) (k : Nat)
    (html : String) :
    ∀ out, authenticateFromHtml u p cv st net k html = Except.ok out →
      out.ok = false → out.st = st := by
  intro out hout hfalse
  rcases hfa : extract_form_action html with _ | fa
  · simp only [authenticateFromHtml, hfa, Except.ok.injEq] at hout
    rw [← hout]
  · simp only [authenticateFromHtml, hfa] at hout
    by_cases hfa0 : fa = ""
    · simp only [if_pos hfa0, Except.ok.injEq] at hout
      rw [← hout]
    · simp only [if_neg hfa0] at hout
      cases hnk : net k with
      | exn =>
        simp only [hnk] at hout
        exact Except.noConfusion hout
      | ok r =>
        simp only [hnk] at hout
        by_cases h302 : r.status = 302
        · simp only [if_neg (not_not_intro h302)] at hout
          rcases hfr : follow_redirects_for_code net (k + 1) r.location with ⟨oc, k2⟩
          simp only [hfr] at hout
          cases oc with
          | none =>
            simp only [Except.ok.injEq] at hout
            rw [← hout]
          | some code =>
            rcases hex : exchange_code_for_token st net k2 code cv with ⟨b, st2, k3⟩
            simp only [hex, Except.ok.injEq] at hout
            rw [← hout] at hfalse ⊢
            have hlem := exchange_code_failure_state st net k2 code cv
            rw [hex] at hlem
            exact hlem hfalse
        · simp only [if_pos h302, Except.ok.injEq] at hout
          rw [← hout]

/-- The body of `authenticate` preserves the token state on every failing
branch that returns (rather than raises). -/
theorem body_failure_state (u p : String) (rng : List Nat) (st : OAuthState) (net : Net)
    (k : Nat) :
    ∀ out, authenticateBody u p rng st net k = Except.ok out →
      out.ok = false → out.st = st := by
  intro out hout hfalse
  cases hnk : net k with
  | exn =>
    simp only [authenticateBody, hnk] at hout
    exact Except.noConfusion hout
  | ok r =>
    simp only [authenticateBody, hnk] at hout
    by_cases h400 : r.status = 400
    · simp only [if_pos h400, Except.ok.injEq] at hout
      rw [← hout]
    · simp only [if_neg h400] at hout
      by_cases h302 : r.status = 302
      · simp only [if_pos h302] at hout
        rcases hc : extract_code r.location with _ | code
        · simp only [hc] at hout
          cases hlp : net (k + 1) with
          | exn =>
            simp only [hlp] at hout
            exact Except.noConfusion hout
          | ok lp =>
            simp only [hlp] at hout
            by_cases hlp200 : lp.status = 200
            · simp only [if_neg (not_not_intro hlp200)] at hout
              exact fromHtml_failure_state u p _ st net (k + 2) lp.body out hout hfalse
            · simp only [if_pos hlp200, Except.ok.injEq] at hout
              rw [← hout]
        · simp only [hc] at hout
          rcases hex : exchange_code_for_token st net (k + 1) code
              (generate_pkce rng).1 with ⟨b, st2, k2⟩
          simp only [hex, Except.ok.injEq] at hout
          rw [← hout] at hfalse ⊢
          have hlem := exchange_code_failure_state st net (k + 1) code (generate_pkce rng).1
          rw [hex] at hlem
          exact hlem hfalse
      · simp only [if_neg h302] at hout
        by_cases h200 : r.status = 200
        · simp only [if_pos h200] at hout
          exact fromHtml_failure_state u p _ st net (k + 1) r.body out hout hfalse
        · simp only [if_neg h200, Except.ok.injEq] at hout
          rw [← hout]

/-- C7: whenever `authenticate` returns failure, the stored access and
refresh tokens are exactly what they were before the call — no partial
token state is persisted by a failed or aborted attempt. -/
theorem authenticate_failure_preserves_tokens (u p : String) (rng : List Nat)
    (st : OAuthState) (net : Net) (k : Nat) :
    (authenticate u p rng st net k).ok = false →
    (authenticate u p rng st net k).st = st := by
  intro h
  unfold authenticate at h ⊢
  cases hb : authenticateBody u p rng st net k with
  | ok out =>
    rw [hb] at h
    exact body_failure_state u p rng st net k out hb h
  | error ep =>
    rcases ep with ⟨e, ps⟩
    rfl

/-- Witness for C7: a failed run (transport exception at the first request)
keeps the token state. -/
theorem authenticate_failure_preserves_tokens_witness :
    (authenticate "u" "p" [] ⟨some "A", some "R"⟩ (fun _ => NetEvent.exn) 0).st
      = ⟨some "A", some "R"⟩ := by
  exact authenticate_failure_preserves_tokens "u" "p" [] ⟨some "A", some "R"⟩
    (fun _ => NetEvent.exn) 0 rfl

/-! ## Success reported without an access token (C9) -/

/-- C9: a 200 token-endpoint response whose JSON lacks `access_token` makes
`_exchange_code_for_token` report success while storing no access token, so
`is_authenticated` is false and the auth headers are empty immediately after
the reported success; the same holds through `authenticate` when its code
exchange hits such a response. -/
theorem exchange_success_without_access_token (st : OAuthState) (net : Net) (k : Nat)
    (c v : String) (r : Response)
    (hk : net k = NetEvent.ok r) (h200 : r.status = 200) (hj : r.jsonOk = true)
    (hmiss : r.tokens.lookup "access_token" = none) :
    (exchange_code_for_token st net k c v).1 = true
    ∧ is_authenticated (exchange_code_for_token st net k c v).2.1 = false
    ∧ get_auth_headers (exchange_code_for_token st net k c v).2.1 = []
    ∧ (∀ (u p : String) (rng : List Nat) (st0 : OAuthState) (k0 : Nat) (r0 : Response),
        net k0 = NetEvent.ok r0 → r0.status = 302 →
        extract_code r0.location = some c → k = k0 + 1 →
        (authenticate u p rng st0 net k0).ok = true
        ∧ is_authenticated (authenticate u p rng st0 net k0).st = false
        ∧ get_auth_headers (authenticate u p rng st0 net k0).st = []) := by
  refine ⟨?_, ?_, ?_, ?_⟩
  · simp [exchange_code_for_token, hk, h200, hj]
  · simp [exchange_code_for_token, hk, h200, hj, hmiss, is_authenticated]
  · simp [exchange_code_for_token, hk, h200, hj, hmiss, get_auth_headers]
  · intro u p rng st0 k0 r0 hk0 h302 hcode hkk
    subst hkk
    simp [authenticate, authenticateBody, hk0, h302, hcode, exchange_code_for_token,
      hk, h200, hj, hmiss, is_authenticated, get_auth_headers]

/-- Witness for C9: a 200 response carrying only a refresh token. -/
theorem exchange_success_without_access_token_witness :
    (exchange_code_for_token ⟨none, none⟩
        (fun _ => NetEvent.ok ⟨200, "", "", true, [("refresh_token", "R1")]⟩) 0 "C" "V").1 = true
    ∧ is_authenticated (exchange_code_for_token ⟨none, none⟩
        (fun _ => NetEvent.ok ⟨200, "", "", true, [("refresh_token", "R1")]⟩) 0 "C" "V").2.1
        = false
    ∧ get_auth_headers (exchange_code_for_token ⟨none, none⟩
        (fun _ => NetEvent.ok ⟨200, "", "", true, [("refresh_token", "R1")]⟩) 0 "C" "V").2.1
        = [] := by
  obtain ⟨h1, h2, h3, _⟩ := exchange_success_without_access_token ⟨none, none⟩
    (fun _ => NetEvent.ok ⟨200, "", "", true, [("refresh_token", "R1")]⟩) 0 "C" "V"
    ⟨200, "", "", true, [("refresh_token", "R1")]⟩ rfl rfl rfl (by decide)
  exact ⟨h1, h2, h3⟩

/-! ## ReturnUrl fallback from the form action (C8) -/

/-- Helper for C8: whatever the network does from the login POST on, the
posts performed by the post-login part of the flow consist of exactly one
login body whose `ReturnUrl` is the form action's decoded `ReturnUrl`
parameter, provided the hidden input yielded the empty string. -/
theorem fromHtml_posts (u p cv : String) (st : OAuthState) (net : Net) (k : Nat)
    (html fa v : String)
    (hfa : extract_form_action html = some fa) (hfa0 : fa ≠ "")
    (hhidden : extract_return_url html = "")
    (hsub : substrIn "ReturnUrl=" fa = true)
    (hq : qsFirst (urlQuery fa) "ReturnUrl" = some v) :
    (postsOf (authenticateFromHtml u p cv st net k html)).map (fun ld => ld.returnUrl)
      = [v] := by
  unfold authenticateFromHtml
  rw [hfa]
  simp only [if_neg hfa0, hhidden, hsub, hq]
  cases hnk : net k with
  | exn => simp [postsOf]
  | ok r =>
    by_cases h302 : r.status = 302
    · simp only [if_neg (not_not_intro h302)]
      rcases hfr : follow_redirects_for_code net (k + 1) r.location with ⟨oc, k2⟩
      cases oc with
      | none => simp [postsOf]
      | some code =>
        rcases hex : exchange_code_for_token st net k2 code cv with ⟨b, st2, k3⟩
        simp [postsOf, hex]
    · simp only [if_pos h302]
      simp [postsOf]

/-- C8: during `authenticate`, when the hidden `ReturnUrl` input of the
login page yields the empty string and the form action's own query string
contains a `ReturnUrl` parameter, the (decoded) value of that parameter is
the `ReturnUrl` field of the submitted login POST body. -/
theorem return_url_fallback (u p : String) (rng : List Nat) (st : OAuthState) (net : Net)
    (k : Nat) (r0 : Response) (fa v : String)
    (hk : net k = NetEvent.ok r0) (h200 : r0.status = 200)
    (hfa : extract_form_action r0.body = some fa) (hfa0 : fa ≠ "")
    (hhidden : extract_return_url r0.body = "")
    (hsub : substrIn "ReturnUrl=" fa = true)
    (hq : qsFirst (urlQuery fa) "ReturnUrl" = some v) :
    (authenticate u p rng st net k).posts.map (fun ld => ld.returnUrl) = [v] := by
  have hbody : authenticateBody u p rng st net k
      = authenticateFromHtml u p (generate_pkce rng).1 st net (k + 1) r0.body := by
    unfold authenticateBody
    rw [hk]
    simp [h200]
  have hp := fromHtml_posts u p (generate_pkce rng).1 st net (k + 1) r0.body fa v
    hfa hfa0 hhidden hsub hq
  unfold authenticate
  rw [hbody]
  cases hfh : authenticateFromHtml u p (generate_pkce rng).1 st net (k + 1) r0.body with
  | ok out =>
    rw [hfh] at hp
    exact hp
  | error ep =>
    rcases ep with ⟨e, ps⟩
    rw [hfh] at hp
    exact hp

/-- Witness for C8: a login page whose form action is
`/x?ReturnUrl=%2Fapp` with no hidden `ReturnUrl` input. -/
theorem return_url_fallback_witness :
    (authenticate "u" "p" [] ⟨none, none⟩
        (fun i => if i = 0 then
            NetEvent.ok ⟨200, "", "<form a action=\"/x?ReturnUrl=%2Fapp\">", true, []⟩
          else NetEvent.exn) 0).posts.map (fun ld => ld.returnUrl) = ["/app"] := by
  exact return_url_fallback "u" "p" [] ⟨none, none⟩
    (fun i => if i = 0 then
        NetEvent.ok ⟨200, "", "<form a action=\"/x?ReturnUrl=%2Fapp\">", true, []⟩
      else NetEvent.exn) 0
    ⟨200, "", "<form a action=\"/x?ReturnUrl=%2Fapp\">", true, []⟩ "/x?ReturnUrl=%2Fapp" "/app"
    rfl rfl (by decide) (by decide) (by decide) (by decide) (by decide)

end Brink
